import Mathlib

/-!
Verification of the rule engine of the static-code-analyzer repository
(`src/main.py`).

The development shallowly embeds the Python program:

* Python `str` values are Lean `String`s; every string operation used by the
  program (`rstrip`, `lstrip`, `find`, `index`, `startswith`, slicing,
  `split('\n')`, `isspace`, `lower`, `count`) is re-implemented here over
  `String.data` so that everything reduces in the kernel.
* `re.match` on the concrete patterns of the program is embedded with a small
  Brzozowski-derivative regular-expression engine (`Re`, `reMatch`,
  `reAccepts`).  `re.match(p, s) is not None` holds iff some prefix of `s`
  is in the language of `p`; a pattern anchored with `$` must match the whole
  string (all anchored patterns of the program end in `\s*`, which absorbs a
  final newline, so `$`-matching and whole-string matching agree).
  Character classes are modelled over ASCII, which covers every input
  considered here.
* Machine integers are `Int`/`Nat` (Python integers are unbounded, so no
  wrap-around modelling is needed).
* Python code that can raise an exception is modelled in `Except Unit`:
  `Except.error ()` is an uncaught exception.  The pure rule checks below are
  the total versions; `ruleCheckE` re-models every partial indexing operation
  explicitly and is proved to agree with the pure versions.
-/

/-! ## ASCII model of Python character predicates -/

/-- Python `str.isspace` / default strip characters, restricted to ASCII:
space, tab, newline, carriage return, vertical tab, form feed. -/
def pyIsSpace (c : Char) : Bool :=
  c = ' ' || c = '\t' || c = '\n' || c = '\r' || c = Char.ofNat 11 || c = Char.ofNat 12

/-- ASCII lowercase letter, the class `[a-z]`. -/
def isLowerAlpha (c : Char) : Bool := 'a' ≤ c && c ≤ 'z'

/-- ASCII uppercase letter, the class `[A-Z]`. -/
def isUpperAlpha (c : Char) : Bool := 'A' ≤ c && c ≤ 'Z'

/-- ASCII digit, the class `[0-9]`. -/
def isDigitChar (c : Char) : Bool := '0' ≤ c && c ≤ '9'

/-- The class `[a-z0-9]`. -/
def isLowerDigit (c : Char) : Bool := isLowerAlpha c || isDigitChar c

/-- The regex class `\w` (and `[\w\d]`), ASCII: letters, digits, underscore. -/
def isWordChar (c : Char) : Bool :=
  isLowerAlpha c || isUpperAlpha c || isDigitChar c || c = '_'

/-- Python `str.lower`, ASCII. -/
def pyToLowerChar (c : Char) : Char :=
  if isUpperAlpha c then Char.ofNat (c.toNat + 32) else c

/-! ## Python string operations -/

/-- Model of `l.rstrip()` on the character list. -/
def pyRstripL (l : List Char) : List Char :=
  (l.reverse.dropWhile pyIsSpace).reverse

/-- Python `s.rstrip()`. -/
def pyRstrip (s : String) : String := String.mk (pyRstripL s.data)

/-- Python `s.lstrip()`. -/
def pyLstrip (s : String) : String := String.mk (s.data.dropWhile pyIsSpace)

/-- Python `s.lower()` (ASCII). -/
def pyLower (s : String) : String := String.mk (s.data.map pyToLowerChar)

/-- Index of the first occurrence of a character, if any
(the machinery behind Python `str.find` / `str.index`). -/
def pyIndexOf : List Char → Char → Option Nat
  | [], _ => none
  | x :: xs, c => if x = c then some 0 else (pyIndexOf xs c).map (· + 1)

/-- Python `s.find(c)`: first index or `-1`. -/
def pyFind (s : String) (c : Char) : Int :=
  match pyIndexOf s.data c with
  | none => -1
  | some i => (i : Int)

/-- Safe list lookup (used to model Python subscripting). -/
def pyGet? : List α → Nat → Option α
  | [], _ => none
  | x :: _, 0 => some x
  | _ :: xs, n + 1 => pyGet? xs n

/-- Python negative indexing `l[-k]` (for `k ≥ 1`), fallible. -/
def pyNegGet (l : List α) (k : Nat) : Option α :=
  pyGet? l.reverse (k - 1)

/-- Python `file.split('\n')` on a character list; keeps empty pieces and
returns `[[]]` on the empty string, like Python `str.split` with an explicit
separator. -/
def pySplitNl : List Char → List (List Char)
  | [] => [[]]
  | c :: rest =>
    let r := pySplitNl rest
    if c = '\n' then [] :: r
    else
      match r with
      | h :: t => (c :: h) :: t
      | [] => [[c]]

/-- Python `file.split('\n')` on strings. -/
def pySplitLines (s : String) : List String :=
  (pySplitNl s.data).map String.mk

/-- Number of occurrences of `"todo"` is nonzero, i.e. the truthiness of
Python `comment.count("todo")`: the count is nonzero iff `"todo"` occurs as a
contiguous substring. -/
def containsTodo (l : List Char) : Bool :=
  l.tails.any fun t => "todo".data.isPrefixOf t

/-- Decimal digit character. -/
def digitChar (n : Nat) : Char := Char.ofNat (48 + n % 10)

/-- Decimal digits of `n` (with fuel so that the kernel can evaluate it). -/
def natDigits : Nat → Nat → List Char
  | 0, _ => []
  | fuel + 1, n => if n < 10 then [digitChar n] else natDigits fuel (n / 10) ++ [digitChar (n % 10)]

/-- Python `str(i)` for an integer. -/
def pyIntToString (i : Int) : String :=
  match i with
  | .ofNat n => String.mk (natDigits (n + 1) n)
  | .negSucc n => String.mk ('-' :: natDigits (n + 2) (n + 1))

/-! ## Regular-expression engine (Brzozowski derivatives)

`reMatch r s` decides whether some (possibly empty) prefix of `s` belongs to
the language of `r` — exactly `re.match(r, s) is not None`.  `reAccepts r s`
decides whether the whole of `s` belongs to the language of `r`, which models
`re.match` on a pattern anchored with a final `$`.  Lazy quantifiers (`*?`,
`+?`) have the same languages as their greedy versions, so existence of a
match is unaffected and they are embedded as `star`/`plus`. -/

inductive Re where
  | eps : Re
  | cls : (Char → Bool) → Re
  | cat : Re → Re → Re
  | alt : Re → Re → Re
  | star : Re → Re

/-- The empty-language regex (derivative of a class on a failed character). -/
def Re.fail : Re := Re.cls fun _ => false

def Re.nullable : Re → Bool
  | .eps => true
  | .cls _ => false
  | .cat a b => a.nullable && b.nullable
  | .alt a b => a.nullable || b.nullable
  | .star _ => true

def Re.deriv : Re → Char → Re
  | .eps, _ => Re.fail
  | .cls p, c => if p c then .eps else Re.fail
  | .cat a b, c => if a.nullable then .alt (.cat (a.deriv c) b) (b.deriv c) else .cat (a.deriv c) b
  | .alt a b, c => .alt (a.deriv c) (b.deriv c)
  | .star a, c => .cat (a.deriv c) (.star a)

/-- Whole-string acceptance. -/
def reAccepts (r : Re) : List Char → Bool
  | [] => r.nullable
  | c :: cs => reAccepts (r.deriv c) cs

/-- Some-prefix acceptance, i.e. Python `re.match(r, s) is not None`. -/
def reMatch (r : Re) : List Char → Bool
  | [] => r.nullable
  | c :: cs => r.nullable || reMatch (r.deriv c) cs

/-- Single literal character. -/
def litRe (c : Char) : Re := Re.cls fun x => x = c

/-- Literal word. -/
def strRe : List Char → Re
  | [] => .eps
  | c :: cs => .cat (litRe c) (strRe cs)

/-- Regex `r+`. -/
def plusRe (r : Re) : Re := .cat r (.star r)

/-- Regex class `\s`. -/
def spRe : Re := Re.cls pyIsSpace

/-- Regex `.` (any character except a newline). -/
def dotRe : Re := Re.cls fun c => !(c = '\n')

/-- Regex class `[\w\d]` (same class as `\w`). -/
def wordRe : Re := Re.cls isWordChar

/-- Regex class `[a-z]`. -/
def lowerRe : Re := Re.cls isLowerAlpha

/-- Regex class `[A-Z]`. -/
def upperRe : Re := Re.cls isUpperAlpha

/-- Regex class `[a-z0-9]`. -/
def lowerDigitRe : Re := Re.cls isLowerDigit

/-! ## Data model (`Line`, `IssueCode`, `Issue`) -/

/-- Model of `Line` dataclass: 1-based position and content. -/
structure Line where
  pos : Int
  content : String
deriving DecidableEq, Repr

/-- Model of `IssueCode` dataclass: short code plus human-readable description. -/
structure IssueCode where
  code : String
  description : String
deriving DecidableEq, Repr

/- The fixed catalog of issue codes from the program. -/
namespace IssueCodes

def DUMMY : IssueCode := ⟨"-1", "Error dummy"⟩
def MAX_LENGTH : IssueCode := ⟨"S001", "Too long"⟩
def INDENTATION_MULTIPLE_FOUR : IssueCode := ⟨"S002", "Indentation is not a multiple of four"⟩
def UNNECESSARY_SEMICOLON : IssueCode := ⟨"S003", "Unnecessary semicolon"⟩
def AT_LEAST_2_SPACES_BEFORE_INLINE_COMMENT : IssueCode :=
  ⟨"S004", "At least two spaces required before inline comments"⟩
def TODO_FOUND : IssueCode := ⟨"S005", "TODO found"⟩
def MORE_TWO_BLANK_LINES_PRECEDING_CODE_LINE : IssueCode :=
  ⟨"S006", "More than two blank lines used before this line"⟩
def TOO_MANY_SPACES_AFTER_DEF_OR_CLASS : IssueCode :=
  ⟨"S007", "Too many spaces after construction_name (def or class)"⟩
def CLASS_NAME_IN_CAMEL_CASE : IssueCode :=
  ⟨"S008", "Class name class_name should be written in CamelCase"⟩
def FUNCTION_NAME_IN_SNAKE_CASE : IssueCode :=
  ⟨"S009", "Function name function_name should be written in snake_case"⟩
def ARGUMENT_NAME_SNAKE_CASE : IssueCode :=
  ⟨"S010", "Argument name arg_name should be written in snake_case"⟩
def VARIABLE_NAME_SNAKE_CASE : IssueCode :=
  ⟨"S011", "Variable var_name should be written in snake_case"⟩
def DEFAULT_ARGUMENT_MUTABLE : IssueCode :=
  ⟨"S012", "The default argument value is mutable"⟩

end IssueCodes

/-- Model of `Issue` dataclass. -/
structure Issue where
  file_name : String
  pos : Int
  code : IssueCode
deriving DecidableEq, Repr

/-! ## `LineFormatter` -/

namespace LineFormatter

/-- Truncate the line before the first `#`, if any (`LineFormatter.remove_comment`). -/
def remove_comment (line : Line) : Line :=
  let comment_pos := pyFind line.content '#'
  if comment_pos = -1 then line
  else ⟨line.pos, String.mk (line.content.data.take comment_pos.toNat)⟩

/-- Model of `LineFormatter.remove_finishing_spaces`. -/
def remove_finishing_spaces (line : Line) : Line := ⟨line.pos, pyRstrip line.content⟩

/-- Model of `LineFormatter.remove_leading_spaces`. -/
def remove_leading_spaces (line : Line) : Line := ⟨line.pos, pyLstrip line.content⟩

end LineFormatter

/-! ## Line rules -/

namespace MaxLineLength

/-- Model of `MaxLineLength.check`: S001 if the content exceeds 79 characters. -/
def check (line : Line) : IssueCode :=
  if line.content.data.length > 79 then IssueCodes.MAX_LENGTH else IssueCodes.DUMMY

end MaxLineLength

namespace IndentationMultipleOfFour

/-- Model of `IndentationMultipleOfFour.check`: S002 if the leading-whitespace width is
not a multiple of four. -/
def check (line : Line) : IssueCode :=
  let line_len := line.content.data.length
  let leading_spaces_cnt := (pyLstrip line.content).data.length
  if (line_len - leading_spaces_cnt) % 4 ≠ 0 then IssueCodes.INDENTATION_MULTIPLE_FOUR
  else IssueCodes.DUMMY

end IndentationMultipleOfFour

namespace UnnecessarySemicolonAfterStatement

/-- Model of `UnnecessarySemicolonAfterStatement.check`: after removing the trailing
comment and then trailing whitespace, S003 if the last character is `;`.
The source's `len(...) > 0 and ...content[-1] == ';'` — the guarded
last-character test — is expressed via `getLast?`, which is `some` exactly
when the length guard holds (`checkE` models the subscript fallibly). -/
def check (line : Line) : IssueCode :=
  let new_line := LineFormatter.remove_comment line
  let new_line := LineFormatter.remove_finishing_spaces new_line
  match new_line.content.data.getLast? with
  | some c => if c = ';' then IssueCodes.UNNECESSARY_SEMICOLON else IssueCodes.DUMMY
  | none => IssueCodes.DUMMY

end UnnecessarySemicolonAfterStatement

/-- The backward whitespace scan of `AtLeastTwoSpacesBeforeInlineComment.check`:
`idx, spaces_cnt = comment_sep_pos - 1, 0` followed by
`while idx >= 0 and line.content[idx].isspace(): spaces_cnt += 1; idx -= 1`.
The fuel argument is `idx + 1`; note that the source scans the *original*
(unstripped) content with an index computed on the stripped content.
Out-of-range access falls back to stopping the scan; `scanSpacesE` below
models the access fallibly and is proved to agree. -/
def scanSpaces (orig : List Char) : Nat → Nat → Nat
  | 0, cnt => cnt
  | n + 1, cnt =>
    match pyGet? orig n with
    | some c => if pyIsSpace c then scanSpaces orig n (cnt + 1) else cnt
    | none => cnt

namespace AtLeastTwoSpacesBeforeInlineComment

/-- Model of `AtLeastTwoSpacesBeforeInlineComment.check`: S004 when the line is not a
full-line comment, contains `#`, and the backward scan finds fewer than two
whitespace characters. -/
def check (line : Line) : IssueCode :=
  let new_line := LineFormatter.remove_leading_spaces line
  if "#".data.isPrefixOf new_line.content.data then IssueCodes.DUMMY
  else
    match pyIndexOf new_line.content.data '#' with
    | none => IssueCodes.DUMMY
    | some comment_sep_pos =>
      let spaces_cnt := scanSpaces line.content.data comment_sep_pos 0
      if spaces_cnt < 2 then IssueCodes.AT_LEAST_2_SPACES_BEFORE_INLINE_COMMENT
      else IssueCodes.DUMMY

end AtLeastTwoSpacesBeforeInlineComment

namespace TodoFound

/-- Model of `TodoFound._extract_comment`: the text from the first `#` onward, or `""`. -/
def extract_comment (line : Line) : String :=
  match pyIndexOf line.content.data '#' with
  | none => ""
  | some comment_sep_pos => String.mk (line.content.data.drop comment_sep_pos)

/-- Model of `TodoFound.check`: S005 when the lower-cased comment contains `"todo"`
(`comment.count("todo")` is truthy iff `"todo"` occurs as a substring). -/
def check (line : Line) : IssueCode :=
  let comment := extract_comment line
  let comment := pyLower comment
  if containsTodo comment.data then IssueCodes.TODO_FOUND else IssueCodes.DUMMY

end TodoFound

namespace MoreThanTwoBlankLinesPrecedingCodeLine

/-- Model of `MoreThanTwoBlankLinesPrecedingCodeLine.check`: needs more than two
history entries; S006 when `prev_lines[-3].content == prev_lines[-2].content
== prev_lines[-1].content == ""`.  The source's negative subscripts are the
first three entries of the reversed history (the guard makes them in-range;
`checkE` below models them fallibly). -/
def check (prev_lines : List Line) (_line : Line) : IssueCode :=
  if prev_lines.length ≤ 2 then IssueCodes.DUMMY
  else
    match prev_lines.reverse with
    | m1 :: m2 :: m3 :: _ =>
      if m3.content = m2.content ∧ m2.content = m1.content ∧ m1.content = "" then
        IssueCodes.MORE_TWO_BLANK_LINES_PRECEDING_CODE_LINE
      else IssueCodes.DUMMY
    | _ => IssueCodes.DUMMY

end MoreThanTwoBlankLinesPrecedingCodeLine

namespace TooManySpacesAfterClass

/-- Pattern `r"^class\s+[\w\d]+\(*.*?\)*:\s*"`. -/
def class_template : Re :=
  .cat (strRe "class".data)
    (.cat (plusRe spRe)
      (.cat (plusRe wordRe)
        (.cat (.star (litRe '('))
          (.cat (.star dotRe)
            (.cat (.star (litRe ')'))
              (.cat (litRe ':') (.star spRe)))))))

/-- Pattern `r"^class\s[\w\d]+\(*.*?\)*:\s*"` (exactly one space after the keyword,
then the same tail). -/
def class_template_one_space : Re :=
  .cat (strRe "class".data)
    (.cat spRe
      (.cat (plusRe wordRe)
        (.cat (.star (litRe '('))
          (.cat (.star dotRe)
            (.cat (.star (litRe ')'))
              (.cat (litRe ':') (.star spRe)))))))

/-- Model of `TooManySpacesAfterClass.is_class_declaration`. -/
def is_class_declaration (line : Line) : Bool :=
  reMatch class_template line.content.data

/-- Model of `TooManySpacesAfterClass.check`: S007 when the left-stripped line is a
class header but not with a single space after `class`. -/
def check (line : Line) : IssueCode :=
  let new_line := LineFormatter.remove_leading_spaces line
  if !is_class_declaration new_line then IssueCodes.DUMMY
  else if !reMatch class_template_one_space new_line.content.data then
    IssueCodes.TOO_MANY_SPACES_AFTER_DEF_OR_CLASS
  else IssueCodes.DUMMY

end TooManySpacesAfterClass

namespace TooManySpacesAfterDef

/-- Pattern `r"^def\s+[\w\d]+\(.*?\):\s*"`. -/
def def_template : Re :=
  .cat (strRe "def".data)
    (.cat (plusRe spRe)
      (.cat (plusRe wordRe)
        (.cat (litRe '(')
          (.cat (.star dotRe)
            (.cat (strRe "):".data) (.star spRe))))))

/-- Pattern `r"^def\s_*[\w\d]+\(.*?\):\s*"`. -/
def def_temp : Re :=
  .cat (strRe "def".data)
    (.cat spRe
      (.cat (.star (litRe '_'))
        (.cat (plusRe wordRe)
          (.cat (litRe '(')
            (.cat (.star dotRe)
              (.cat (strRe "):".data) (.star spRe)))))))

/-- Model of `TooManySpacesAfterDef.is_def_declaration`. -/
def is_def_declaration (line : Line) : Bool :=
  reMatch def_template line.content.data

/-- Model of `TooManySpacesAfterDef.check`. -/
def check (line : Line) : IssueCode :=
  let new_line := LineFormatter.remove_leading_spaces line
  if !is_def_declaration new_line then IssueCodes.DUMMY
  else if !reMatch def_temp new_line.content.data then
    IssueCodes.TOO_MANY_SPACES_AFTER_DEF_OR_CLASS
  else IssueCodes.DUMMY

end TooManySpacesAfterDef

namespace ClassNameInCamelCase

/-- Pattern `r"class\s+[\w\d]+\(*.*\)*:\s*$"`, `$`-anchored, hence whole-string. -/
def class_template : Re :=
  .cat (strRe "class".data)
    (.cat (plusRe spRe)
      (.cat (plusRe wordRe)
        (.cat (.star (litRe '('))
          (.cat (.star dotRe)
            (.cat (.star (litRe ')'))
              (.cat (litRe ':') (.star spRe)))))))

/-- Pattern `r"^class\s+([A-Z][a-z]+)+\(*.*?\)*:"`. -/
def class_name_camel_case : Re :=
  .cat (strRe "class".data)
    (.cat (plusRe spRe)
      (.cat (plusRe (.cat upperRe (plusRe lowerRe)))
        (.cat (.star (litRe '('))
          (.cat (.star dotRe)
            (.cat (.star (litRe ')')) (litRe ':'))))))

/-- Model of `ClassNameInCamelCase.is_class_declaration` (anchored pattern). -/
def is_class_declaration (line : Line) : Bool :=
  reAccepts class_template line.content.data

/-- Model of `ClassNameInCamelCase.check`: S008 when a complete class header's name is
not CamelCase. -/
def check (line : Line) : IssueCode :=
  let new_line := LineFormatter.remove_leading_spaces line
  if !is_class_declaration new_line then IssueCodes.DUMMY
  else if !reMatch class_name_camel_case new_line.content.data then
    IssueCodes.CLASS_NAME_IN_CAMEL_CASE
  else IssueCodes.DUMMY

end ClassNameInCamelCase

namespace FunctionNameInSnakeCase

/-- Pattern `r"def\s+[\w\d_]+\(.*\):\s*$"`, `$`-anchored, hence whole-string. -/
def def_template : Re :=
  .cat (strRe "def".data)
    (.cat (plusRe spRe)
      (.cat (plusRe wordRe)
        (.cat (litRe '(')
          (.cat (.star dotRe)
            (.cat (strRe "):".data) (.star spRe))))))

/-- Pattern `r"^def\s+__[\w]+?__\(.*?\):\s*"`. -/
def dunder_template : Re :=
  .cat (strRe "def".data)
    (.cat (plusRe spRe)
      (.cat (strRe "__".data)
        (.cat (plusRe wordRe)
          (.cat (strRe "__".data)
            (.cat (litRe '(')
              (.cat (.star dotRe)
                (.cat (strRe "):".data) (.star spRe))))))))

/-- Pattern `r"^def\s_*([a-z0-9]+_*)+\(.*\):\s*"`. -/
def def_name_snake_case : Re :=
  .cat (strRe "def".data)
    (.cat spRe
      (.cat (.star (litRe '_'))
        (.cat (plusRe (.cat (plusRe lowerDigitRe) (.star (litRe '_'))))
          (.cat (litRe '(')
            (.cat (.star dotRe)
              (.cat (strRe "):".data) (.star spRe)))))))

/-- Model of `FunctionNameInSnakeCase.is_def_declaration` (anchored pattern). -/
def is_def_declaration (line : Line) : Bool :=
  reAccepts def_template line.content.data

/-- Model of `FunctionNameInSnakeCase.is_dunder_method`. -/
def is_dunder_method (line : Line) : Bool :=
  reMatch dunder_template line.content.data

/-- Model of `FunctionNameInSnakeCase.check`: S009 when a complete def header's name is
neither dunder nor snake_case. -/
def check (line : Line) : IssueCode :=
  let new_line := LineFormatter.remove_leading_spaces line
  if !is_def_declaration new_line then IssueCodes.DUMMY
  else if is_dunder_method new_line then IssueCodes.DUMMY
  else if !reMatch def_name_snake_case new_line.content.data then
    IssueCodes.FUNCTION_NAME_IN_SNAKE_CASE
  else IssueCodes.DUMMY

end FunctionNameInSnakeCase

/-- Pattern `r"[a-z]+(_[a-z]+)*"`, the pattern of `is_arg_snake_case`. -/
def arg_template : Re :=
  .cat (plusRe lowerRe) (.star (.cat (litRe '_') (plusRe lowerRe)))

/-- Model of `is_arg_snake_case`: `re.match(r"[a-z]+(_[a-z]+)*", arg) is not None` —
a *prefix* match, not a full match. -/
def is_arg_snake_case (arg : String) : Bool :=
  reMatch arg_template arg.data

/-- Modelled from the spec: the "lowercase-with-underscores pattern" that the
specification says parameter names are validated against — the *full*
language of `[a-z]+(_[a-z]+)*`.  It is compared against the program's
prefix-matching `is_arg_snake_case`. -/
def lowercaseWithUnderscores (s : String) : Bool :=
  reAccepts arg_template s.data

/-! ## Rule dispatch and the line-by-line engine -/

/-- The closed set of line rules, tagged in the order of `line_by_line_rules()`. -/
inductive LBLRule where
  | maxLineLength
  | indentationMultipleOfFour
  | unnecessarySemicolonAfterStatement
  | atLeastTwoSpacesBeforeInlineComment
  | todoFound
  | moreThanTwoBlankLinesPrecedingCodeLine
  | tooManySpacesAfterClass
  | tooManySpacesAfterDef
  | classNameInCamelCase
  | functionNameInSnakeCase
deriving DecidableEq, Repr

/-- Model of `line_by_line_rules()`. -/
def line_by_line_rules : List LBLRule :=
  [.maxLineLength, .indentationMultipleOfFour, .unnecessarySemicolonAfterStatement,
   .atLeastTwoSpacesBeforeInlineComment, .todoFound,
   .moreThanTwoBlankLinesPrecedingCodeLine, .tooManySpacesAfterClass,
   .tooManySpacesAfterDef, .classNameInCamelCase, .functionNameInSnakeCase]

/-- Dispatch `rule.check(line)`; the blank-run rule reads the history that the
engine installs with `set_prev_lines` just before the call. -/
def ruleCheck (r : LBLRule) (prev_lines : List Line) (line : Line) : IssueCode :=
  match r with
  | .maxLineLength => MaxLineLength.check line
  | .indentationMultipleOfFour => IndentationMultipleOfFour.check line
  | .unnecessarySemicolonAfterStatement => UnnecessarySemicolonAfterStatement.check line
  | .atLeastTwoSpacesBeforeInlineComment => AtLeastTwoSpacesBeforeInlineComment.check line
  | .todoFound => TodoFound.check line
  | .moreThanTwoBlankLinesPrecedingCodeLine =>
      MoreThanTwoBlankLinesPrecedingCodeLine.check prev_lines line
  | .tooManySpacesAfterClass => TooManySpacesAfterClass.check line
  | .tooManySpacesAfterDef => TooManySpacesAfterDef.check line
  | .classNameInCamelCase => ClassNameInCamelCase.check line
  | .functionNameInSnakeCase => FunctionNameInSnakeCase.check line

/-- The inner rule loop of `check_file_line_by_line` for one physical line:
the raw content is right-stripped, the blank-run rule is skipped when the
stripped content is empty, and an `Issue` is appended whenever a rule returns
something other than the sentinel. -/
def processLine (file_name : String) (prev_lines : List Line) (pos : Int)
    (raw : String) : List Issue :=
  let content := pyRstrip raw
  line_by_line_rules.filterMap fun r =>
    if r = LBLRule.moreThanTwoBlankLinesPrecedingCodeLine ∧ content = "" then none
    else
      let error := ruleCheck r prev_lines ⟨pos, content⟩
      if error = IssueCodes.DUMMY then none else some ⟨file_name, pos, error⟩

/-- The `Line` appended to `prev_lines` after dispatch. -/
def mkLine (pos : Int) (raw : String) : Line := ⟨pos, pyRstrip raw⟩

/-- The outer loop of `check_file_line_by_line`: 1-based positions, rolling
history appended after each line. -/
def checkLoop (file_name : String) : Int → List Line → List String → List Issue
  | _, _, [] => []
  | pos, prev_lines, raw :: rest =>
      processLine file_name prev_lines pos raw ++
        checkLoop file_name (pos + 1) (prev_lines ++ [mkLine pos raw]) rest

/-- Model of `check_file_line_by_line` on an already-split list of physical lines. -/
def checkLines (file_name : String) (lines : List String) : List Issue :=
  checkLoop file_name 1 [] lines

/-- Model of `check_file_line_by_line(file_name, file, rules)`. -/
def check_file_line_by_line (file_name : String) (file : String) : List Issue :=
  checkLines file_name (pySplitLines file)

/-! ## Syntax-tree model and the syntax-analysis pass

`ast.parse`/`ast.walk` are the Python standard library; their result is
modelled as the input of the pass: a list of walked nodes in which only
`ast.FunctionDef` nodes matter.  Only the node attributes that `main` reads
are modelled. -/

/-- The syntactic kind of a default-value expression, as tested by
`type(default) == ast.List / ast.Dict / ast.Set`. -/
inductive PyExprKind where
  | listDisp
  | dictDisp
  | setDisp
  | nameExpr
  | constExpr
  | otherExpr
deriving DecidableEq, Repr

/-- A default-value expression: its kind and its `lineno`. -/
structure PyExprInfo where
  kind : PyExprKind
  lineno : Int
deriving DecidableEq, Repr

/-- One declared parameter: `arg.arg` and `arg.lineno`. -/
structure PyArg where
  arg : String
  lineno : Int
deriving DecidableEq, Repr

/-- An assignment target, as tested by `type(targets[0]) == ast.Name`. -/
inductive PyTarget where
  | nameTgt (id : String)
  | otherTgt
deriving DecidableEq, Repr

/-- A direct body statement, as tested by `type(ast_object) == ast.Assign`. -/
inductive PyStmt where
  | assignStmt (targets : List PyTarget) (lineno : Int)
  | otherStmt
deriving DecidableEq, Repr

/-- An `ast.FunctionDef` node: the attributes `main` reads. -/
structure FunctionDef where
  name : String
  args : List PyArg
  defaults : List PyExprInfo
  body : List PyStmt
deriving DecidableEq, Repr

/-- A node of `ast.walk`: a `FunctionDef` or anything else (skipped). -/
inductive PyNode where
  | functionDef (fd : FunctionDef)
  | otherNode
deriving DecidableEq, Repr

/-- The S010 part of `main`'s per-node loop: one issue at `arg.lineno` for
every parameter whose name fails `is_arg_snake_case`. -/
def nodeS010 (file_name : String) (fd : FunctionDef) : List Issue :=
  fd.args.filterMap fun a =>
    if is_arg_snake_case a.arg then none
    else some ⟨file_name, a.lineno, IssueCodes.ARGUMENT_NAME_SNAKE_CASE⟩

/-- The S011 part: single-target assignments to a plain name whose identifier
fails `is_arg_snake_case`. -/
def nodeS011 (file_name : String) (fd : FunctionDef) : List Issue :=
  fd.body.filterMap fun st =>
    match st with
    | .assignStmt [PyTarget.nameTgt var_id] lineno =>
        if is_arg_snake_case var_id then none
        else some ⟨file_name, lineno, IssueCodes.VARIABLE_NAME_SNAKE_CASE⟩
    | _ => none

/-- Model of `type(default) == ast.List or type(default) == ast.Dict or type(default) == ast.Set`. -/
def isMutableLiteral (k : PyExprKind) : Bool :=
  k = PyExprKind.listDisp || k = PyExprKind.dictDisp || k = PyExprKind.setDisp

/-- The S012 fold: `has_mutable, idx = False, -1`, updated by each offending
default in declaration order. -/
def s012Fold (defaults : List PyExprInfo) : Bool × Int :=
  defaults.foldl
    (fun st d => if isMutableLiteral d.kind then (true, d.lineno) else st)
    (false, -1)

/-- The S012 part: one issue for the whole function at the line of the last
offending default, if any. -/
def nodeS012 (file_name : String) (fd : FunctionDef) : List Issue :=
  let st := s012Fold fd.defaults
  if st.1 then [⟨file_name, st.2, IssueCodes.DEFAULT_ARGUMENT_MUTABLE⟩] else []

/-- All issues `main` appends for one `FunctionDef` node, in append order. -/
def nodeIssues (file_name : String) (fd : FunctionDef) : List Issue :=
  nodeS010 file_name fd ++ nodeS011 file_name fd ++ nodeS012 file_name fd

/-- The whole syntax-analysis pass over the walked nodes. -/
def analyzerIssues (file_name : String) (nodes : List PyNode) : List Issue :=
  nodes.foldr
    (fun n acc =>
      (match n with
       | .functionDef fd => nodeIssues file_name fd
       | .otherNode => []) ++ acc)
    []

/-! ## Sorting and rendering -/

/-- Code-point comparison of character lists (Python string `<`). -/
def charListLt : List Char → List Char → Bool
  | _, [] => false
  | [], _ :: _ => true
  | a :: as, b :: bs =>
    if a.toNat < b.toNat then true
    else if b.toNat < a.toNat then false
    else charListLt as bs

/-- Python string `<`. -/
def pyStrLt (a b : String) : Bool := charListLt a.data b.data

/-- The sort key comparison `(i.file_name, i.pos, i.code.code)`, as a total
`≤` on issues. -/
def issueLe (a b : Issue) : Bool :=
  if pyStrLt a.file_name b.file_name then true
  else if pyStrLt b.file_name a.file_name then false
  else if a.pos < b.pos then true
  else if b.pos < a.pos then false
  else if pyStrLt a.code.code b.code.code then true
  else if pyStrLt b.code.code a.code.code then false
  else true

/-- Ordered insertion for `pySortIssues`. -/
def insertIss (x : Issue) : List Issue → List Issue
  | [] => [x]
  | y :: ys => if issueLe y x then y :: insertIss x ys else x :: y :: ys

/-- Model of `issues.sort(key=lambda i: (i.file_name, i.pos, i.code.code))`: insertion
sort by the three-component key.  Issues with identical keys render
identically (the catalog maps each code string to one description), so the
order among key-equal issues is not observable in the output. -/
def pySortIssues (l : List Issue) : List Issue := l.foldr insertIss []

/-- Model of `f"{issue.file_name}: Line {issue.pos}: {issue.code.code} {issue.code.description}"`. -/
def renderIssue (i : Issue) : String :=
  i.file_name ++ ": Line " ++ pyIntToString i.pos ++ ": " ++ i.code.code ++ " " ++
    i.code.description

/-- The per-file body of `main`: run the line pass, then `ast.parse` (whose
failure, `parsed = none`, is an uncaught exception), then the syntax pass,
then sort and render.  `Except.error ()` models the propagating exception:
nothing is printed for the file (and the run aborts). -/
def processFile (file_name : String) (file_content : String)
    (parsed : Option (List PyNode)) : Except Unit (List String) :=
  let lineIssues := check_file_line_by_line file_name file_content
  match parsed with
  | none => Except.error ()
  | some nodes =>
      let issues := lineIssues ++ analyzerIssues file_name nodes
      Except.ok ((pySortIssues issues).map renderIssue)

/-! ## Fallible re-modelling of the rule checks

`Except.error ()` stands for an uncaught Python exception.  Each `checkE`
repeats the corresponding `check` with every partial operation of the source
made explicit: the `[-1]` subscript of the semicolon rule, the
`line.content[idx]` subscript inside the comment-spacing scan, and the
`prev_lines[-3..-1]` subscripts of the blank-run rule.  The rules that use
only total operations (`len`, `lstrip`, `rstrip`, `find` / guarded `index`,
`count`, `re.match`) have no error path. -/

/-- The backward whitespace scan with the subscript made fallible. -/
def scanSpacesE (orig : List Char) : Nat → Nat → Except Unit Nat
  | 0, cnt => Except.ok cnt
  | n + 1, cnt =>
    match pyGet? orig n with
    | some c => if pyIsSpace c then scanSpacesE orig n (cnt + 1) else Except.ok cnt
    | none => Except.error ()

namespace UnnecessarySemicolonAfterStatement

/-- Model of `check` with the `new_line.content[-1]` subscript made fallible. -/
def checkE (line : Line) : Except Unit IssueCode :=
  let new_line := LineFormatter.remove_comment line
  let new_line := LineFormatter.remove_finishing_spaces new_line
  if 0 < new_line.content.data.length then
    match pyNegGet new_line.content.data 1 with
    | none => Except.error ()
    | some c =>
        Except.ok (if c = ';' then IssueCodes.UNNECESSARY_SEMICOLON else IssueCodes.DUMMY)
  else Except.ok IssueCodes.DUMMY

end UnnecessarySemicolonAfterStatement

namespace AtLeastTwoSpacesBeforeInlineComment

/-- Model of `check` with the scan's subscript into the original content made fallible. -/
def checkE (line : Line) : Except Unit IssueCode :=
  let new_line := LineFormatter.remove_leading_spaces line
  if "#".data.isPrefixOf new_line.content.data then Except.ok IssueCodes.DUMMY
  else
    match pyIndexOf new_line.content.data '#' with
    | none => Except.ok IssueCodes.DUMMY
    | some comment_sep_pos =>
      match scanSpacesE line.content.data comment_sep_pos 0 with
      | Except.error e => Except.error e
      | Except.ok spaces_cnt =>
          Except.ok
            (if spaces_cnt < 2 then IssueCodes.AT_LEAST_2_SPACES_BEFORE_INLINE_COMMENT
             else IssueCodes.DUMMY)

end AtLeastTwoSpacesBeforeInlineComment

namespace MoreThanTwoBlankLinesPrecedingCodeLine

/-- Model of `check` with the negative subscripts into the history made fallible. -/
def checkE (prev_lines : List Line) (_line : Line) : Except Unit IssueCode :=
  if prev_lines.length ≤ 2 then Except.ok IssueCodes.DUMMY
  else
    match pyNegGet prev_lines 3, pyNegGet prev_lines 2, pyNegGet prev_lines 1 with
    | some m3, some m2, some m1 =>
        Except.ok
          (if m3.content = m2.content ∧ m2.content = m1.content ∧ m1.content = "" then
            IssueCodes.MORE_TWO_BLANK_LINES_PRECEDING_CODE_LINE
          else IssueCodes.DUMMY)
    | _, _, _ => Except.error ()

end MoreThanTwoBlankLinesPrecedingCodeLine

/-- Fallible dispatch of all ten rules. -/
def ruleCheckE (r : LBLRule) (prev_lines : List Line) (line : Line) :
    Except Unit IssueCode :=
  match r with
  | .maxLineLength => Except.ok (MaxLineLength.check line)
  | .indentationMultipleOfFour => Except.ok (IndentationMultipleOfFour.check line)
  | .unnecessarySemicolonAfterStatement => UnnecessarySemicolonAfterStatement.checkE line
  | .atLeastTwoSpacesBeforeInlineComment => AtLeastTwoSpacesBeforeInlineComment.checkE line
  | .todoFound => Except.ok (TodoFound.check line)
  | .moreThanTwoBlankLinesPrecedingCodeLine =>
      MoreThanTwoBlankLinesPrecedingCodeLine.checkE prev_lines line
  | .tooManySpacesAfterClass => Except.ok (TooManySpacesAfterClass.check line)
  | .tooManySpacesAfterDef => Except.ok (TooManySpacesAfterDef.check line)
  | .classNameInCamelCase => Except.ok (ClassNameInCamelCase.check line)
  | .functionNameInSnakeCase => Except.ok (FunctionNameInSnakeCase.check line)

/-- The `Line`s that the engine appends to the history while processing a
block of raw lines starting at position `pos`. -/
def linesFrom : Int → List String → List Line
  | _, [] => []
  | pos, raw :: rest => mkLine pos raw :: linesFrom (pos + 1) rest

/-- The unique non-sentinel code each rule can return. -/
def ruleCode : LBLRule → IssueCode
  | .maxLineLength => IssueCodes.MAX_LENGTH
  | .indentationMultipleOfFour => IssueCodes.INDENTATION_MULTIPLE_FOUR
  | .unnecessarySemicolonAfterStatement => IssueCodes.UNNECESSARY_SEMICOLON
  | .atLeastTwoSpacesBeforeInlineComment => IssueCodes.AT_LEAST_2_SPACES_BEFORE_INLINE_COMMENT
  | .todoFound => IssueCodes.TODO_FOUND
  | .moreThanTwoBlankLinesPrecedingCodeLine => IssueCodes.MORE_TWO_BLANK_LINES_PRECEDING_CODE_LINE
  | .tooManySpacesAfterClass => IssueCodes.TOO_MANY_SPACES_AFTER_DEF_OR_CLASS
  | .tooManySpacesAfterDef => IssueCodes.TOO_MANY_SPACES_AFTER_DEF_OR_CLASS
  | .classNameInCamelCase => IssueCodes.CLASS_NAME_IN_CAMEL_CASE
  | .functionNameInSnakeCase => IssueCodes.FUNCTION_NAME_IN_SNAKE_CASE

/-! ## Helper lemmas -/

theorem pyGet?_zero (l : List α) : pyGet? l 0 = l.head? := by
  cases l <;> rfl

theorem pyGet?_lt : ∀ (l : List α) (n : Nat), n < l.length → ∃ a, pyGet? l n = some a
  | _ :: _, 0, _ => ⟨_, rfl⟩
  | _ :: xs, n + 1, h => pyGet?_lt xs n (Nat.lt_of_succ_lt_succ h)

theorem pyNegGet_one (l : List α) : pyNegGet l 1 = l.getLast? := by
  unfold pyNegGet
  rw [show (1 : Nat) - 1 = 0 from rfl, pyGet?_zero, List.head?_reverse]

theorem pyIndexOf_lt_length :
    ∀ (l : List Char) (c : Char) (i : Nat), pyIndexOf l c = some i → i < l.length := by
  intro l
  induction l with
  | nil => intro c i h; simp [pyIndexOf] at h
  | cons x xs ih =>
    intro c i h
    by_cases hx : x = c
    · rw [pyIndexOf, if_pos hx] at h
      injection h with h
      rw [← h]
      simp
    · rw [pyIndexOf, if_neg hx] at h
      rw [Option.map_eq_some'] at h
      obtain ⟨j, hj, hji⟩ := h
      have := ih c j hj
      rw [← hji]
      simp
      omega

theorem scanSpacesE_ok (orig : List Char) :
    ∀ (n cnt : Nat), n ≤ orig.length →
      scanSpacesE orig n cnt = Except.ok (scanSpaces orig n cnt) := by
  intro n
  induction n with
  | zero => intro cnt _; rfl
  | succ m ih =>
    intro cnt h
    obtain ⟨a, ha⟩ := pyGet?_lt orig m (Nat.lt_of_succ_le h)
    rw [scanSpacesE, scanSpaces, ha]
    by_cases hsp : pyIsSpace a = true
    · simp [hsp, ih (cnt + 1) (Nat.le_of_succ_le h)]
    · simp [hsp]

theorem semicolon_checkE_agrees (line : Line) :
    UnnecessarySemicolonAfterStatement.checkE line =
      Except.ok (UnnecessarySemicolonAfterStatement.check line) := by
  unfold UnnecessarySemicolonAfterStatement.checkE UnnecessarySemicolonAfterStatement.check
  by_cases h :
      0 < (LineFormatter.remove_finishing_spaces (LineFormatter.remove_comment line)).content.data.length
  · have hne := List.ne_nil_of_length_pos h
    rw [if_pos h, pyNegGet_one, List.getLast?_eq_getLast _ hne]
    simp [List.getLast?_eq_getLast _ hne]
  · rw [if_neg h]
    have hnil : (LineFormatter.remove_finishing_spaces
        (LineFormatter.remove_comment line)).content.data = [] := by
      have := Nat.eq_zero_of_not_pos h
      exact List.eq_nil_of_length_eq_zero this
    simp [hnil]

theorem comment_spacing_checkE_agrees (line : Line) :
    AtLeastTwoSpacesBeforeInlineComment.checkE line =
      Except.ok (AtLeastTwoSpacesBeforeInlineComment.check line) := by
  unfold AtLeastTwoSpacesBeforeInlineComment.checkE AtLeastTwoSpacesBeforeInlineComment.check
  by_cases hpre :
      "#".data.isPrefixOf (LineFormatter.remove_leading_spaces line).content.data = true
  · simp [hpre]
  · simp only [hpre, if_false]
    cases hidx : pyIndexOf (LineFormatter.remove_leading_spaces line).content.data '#' with
    | none => simp
    | some j =>
      have hlt : j < (LineFormatter.remove_leading_spaces line).content.data.length :=
        pyIndexOf_lt_length _ _ _ hidx
      have hle : (LineFormatter.remove_leading_spaces line).content.data.length ≤
          line.content.data.length := by
        show (line.content.data.dropWhile pyIsSpace).length ≤ line.content.data.length
        exact (List.dropWhile_sublist pyIsSpace).length_le
      have hscan := scanSpacesE_ok line.content.data j 0
        (Nat.le_of_lt (Nat.lt_of_lt_of_le hlt hle))
      simp [hscan]

theorem blank_run_checkE_agrees (prev_lines : List Line) (line : Line) :
    MoreThanTwoBlankLinesPrecedingCodeLine.checkE prev_lines line =
      Except.ok (MoreThanTwoBlankLinesPrecedingCodeLine.check prev_lines line) := by
  unfold MoreThanTwoBlankLinesPrecedingCodeLine.checkE MoreThanTwoBlankLinesPrecedingCodeLine.check
  by_cases h : prev_lines.length ≤ 2
  · simp only [h, if_true]
  · simp only [h, if_false]
    have h3 : 2 < prev_lines.reverse.length := by
      rw [List.length_reverse]; omega
    match hrev : prev_lines.reverse with
    | [] => rw [hrev] at h3; simp at h3
    | [a] => rw [hrev] at h3; simp at h3
    | [a, b] => rw [hrev] at h3; simp at h3
    | m1 :: m2 :: m3 :: rest =>
      have e1 : pyNegGet prev_lines 1 = some m1 := by
        unfold pyNegGet; rw [hrev]; rfl
      have e2 : pyNegGet prev_lines 2 = some m2 := by
        unfold pyNegGet; rw [hrev]; rfl
      have e3 : pyNegGet prev_lines 3 = some m3 := by
        unfold pyNegGet; rw [hrev]; rfl
      rw [e1, e2, e3]

/-- C9: every line rule's check is a total function over arbitrary line text:
with every partial indexing operation of the source modelled explicitly
(`ruleCheckE`), each rule evaluates without error to the value of the pure
check — in particular the comment-spacing rule's backward whitespace scan
never indexes out of range, because the index of `#` in the left-stripped
content is always within the longer original content. -/
theorem c9_rule_checks_total (r : LBLRule) (prev_lines : List Line) (line : Line) :
    ruleCheckE r prev_lines line = Except.ok (ruleCheck r prev_lines line) := by
  cases r <;>
    simp only [ruleCheckE, ruleCheck,
      semicolon_checkE_agrees, comment_spacing_checkE_agrees, blank_run_checkE_agrees]

theorem str_eq_empty_iff (s : String) : s = "" ↔ s.data = [] := by
  constructor
  · intro h
    rw [h]
  · intro h
    cases s with
    | mk d =>
      have hd : d = [] := h
      rw [hd]

theorem reMatch_of_nullable {r : Re} (h : r.nullable = true) :
    ∀ cs, reMatch r cs = true
  | [] => by rw [reMatch]; exact h
  | c :: cs => by rw [reMatch, h]; rfl

theorem reMatch_catcat_fail (r2 r3 : Re) :
    ∀ cs, reMatch (Re.cat (Re.cat Re.fail r2) r3) cs = false := by
  intro cs
  induction cs with
  | nil => rfl
  | cons c cs ih =>
    show (false || reMatch (Re.cat (Re.cat Re.fail r2) r3) cs) = false
    rw [Bool.false_or]
    exact ih

theorem is_arg_snake_case_iff (s : String) :
    is_arg_snake_case s = true ↔ ∃ c cs, s.data = c :: cs ∧ isLowerAlpha c = true := by
  unfold is_arg_snake_case
  cases hd : s.data with
  | nil =>
    constructor
    · intro h
      exact absurd h (by decide)
    · rintro ⟨c, cs, hc, -⟩
      exact absurd hc (by simp)
  | cons c cs =>
    by_cases hc : isLowerAlpha c = true
    · have hder : Re.deriv arg_template c =
          Re.cat (Re.cat Re.eps (Re.star lowerRe))
            (Re.star (Re.cat (litRe '_') (plusRe lowerRe))) := by
        simp [arg_template, plusRe, Re.deriv, Re.nullable, lowerRe, hc]
      have : reMatch arg_template (c :: cs) = true := by
        rw [reMatch, hder]
        rw [reMatch_of_nullable (by rfl) cs]
        rfl
      simp [this, hc]
    · have hder : Re.deriv arg_template c =
          Re.cat (Re.cat Re.fail (Re.star lowerRe))
            (Re.star (Re.cat (litRe '_') (plusRe lowerRe))) := by
        simp [arg_template, plusRe, Re.deriv, Re.nullable, lowerRe, hc, Re.fail]
      have : reMatch arg_template (c :: cs) = false := by
        rw [reMatch, hder, reMatch_catcat_fail]
        rfl
      simp [this, hc]

theorem mem_nodeS010_iff (fn : String) (fd : FunctionDef) (l : Int) :
    (Issue.mk fn l IssueCodes.ARGUMENT_NAME_SNAKE_CASE ∈ nodeS010 fn fd) ↔
      ∃ a, a ∈ fd.args ∧ a.lineno = l ∧ is_arg_snake_case a.arg = false := by
  unfold nodeS010
  rw [List.mem_filterMap]
  constructor
  · rintro ⟨a, ha, hf⟩
    by_cases hs : is_arg_snake_case a.arg = true
    · rw [if_pos hs] at hf
      exact absurd hf (by simp)
    · rw [if_neg hs] at hf
      injection hf with hf
      injection hf with h1 h2 h3
      exact ⟨a, ha, h2, by simpa using hs⟩
  · rintro ⟨a, ha, hl, hs⟩
    refine ⟨a, ha, ?_⟩
    rw [if_neg (by simp [hs]), hl]

/-- C1 (counterexample): the file `"x = 1;\ndef f(:"` does not parse (its
second line is malformed), and its first line carries an S003 line-rule
finding; the checker does not report that finding — the uncaught parse
exception (`parsed = none`) yields no output at all, contradicting "the
line-rule findings already collected for that file are still reported in the
output" and "no crash". -/
theorem c1_counterexample :
    processFile "f.py" "x = 1;\ndef f(:" none = Except.error () ∧
    check_file_line_by_line "f.py" "x = 1;\ndef f(:" =
      [⟨"f.py", 1, IssueCodes.UNNECESSARY_SEMICOLON⟩] :=
  ⟨rfl, by decide⟩

/-- C1 (amended): `ast.parse` is called without any exception handler, so for
every input file whose content fails to parse, the per-file body of `main`
ends in the propagating exception: the syntax-analysis pass is not performed
and nothing — including the line-rule findings already collected for that
file — is reported. -/
theorem c1_amended (file_name file_content : String) :
    processFile file_name file_content none = Except.error () := rfl

/-- C3 (counterexample): the parameter name `badArg` does not match the
lowercase-with-underscores pattern (as a whole word), yet the checker emits
no S010 for `def f(badArg):` — `is_arg_snake_case` uses `re.match`, which
only requires a matching *prefix*, and `badArg` starts with a lowercase
letter. -/
theorem c3_counterexample :
    analyzerIssues "g.py" [PyNode.functionDef ⟨"f", [⟨"badArg", 1⟩], [], []⟩] = [] ∧
    lowercaseWithUnderscores "badArg" = false :=
  ⟨by decide, by decide⟩

/-- C3 (amended): the checker emits an S010 issue at a parameter's declared
line exactly when some parameter declared at that line has a name with no
prefix in `[a-z]+(_[a-z]+)*` — equivalently, a name that does not start with
a lowercase letter.  In particular `def f(BadArg):` yields an S010 at the
parameter's line and `def f(good_arg):` yields none. -/
theorem c3_amended :
    (∀ s : String,
      is_arg_snake_case s = true ↔ ∃ c cs, s.data = c :: cs ∧ isLowerAlpha c = true) ∧
    (∀ (fn : String) (fd : FunctionDef) (l : Int),
      Issue.mk fn l IssueCodes.ARGUMENT_NAME_SNAKE_CASE ∈ nodeS010 fn fd ↔
        ∃ a, a ∈ fd.args ∧ a.lineno = l ∧ is_arg_snake_case a.arg = false) ∧
    nodeS010 "g.py" ⟨"f", [⟨"BadArg", 1⟩], [], []⟩ =
      [⟨"g.py", 1, IssueCodes.ARGUMENT_NAME_SNAKE_CASE⟩] ∧
    nodeS010 "g.py" ⟨"f", [⟨"good_arg", 1⟩], [], []⟩ = [] :=
  ⟨is_arg_snake_case_iff, mem_nodeS010_iff, by decide, by decide⟩

/-- C4 (code behavior at the failing input): on the line `"  y = 2  # c"`
two spaces immediately precede the comment marker (the marker is at index 9
of the line, indices 7 and 8 hold spaces), yet the rule returns S004: the
scan start index is computed on the left-stripped content but applied to the
original content, so it lands on `'2'` instead of the spaces. -/
theorem c4_s004_scans_original_content :
    AtLeastTwoSpacesBeforeInlineComment.check ⟨1, "  y = 2  # c"⟩ =
      IssueCodes.AT_LEAST_2_SPACES_BEFORE_INLINE_COMMENT ∧
    pyGet? "  y = 2  # c".data 9 = some '#' ∧
    pyGet? "  y = 2  # c".data 8 = some ' ' ∧
    pyGet? "  y = 2  # c".data 7 = some ' ' := by
  refine ⟨by decide, by decide, by decide, by decide⟩

/-- C6 (counterexample): `"x = 1;  # note: a;b"` yields S003, not "no S003"
as the claim's example asserts — stripping the trailing comment leaves
`"x = 1;"`, whose last character after `rstrip` is the (uncommented)
semicolon. -/
theorem c6_counterexample :
    UnnecessarySemicolonAfterStatement.check ⟨1, "x = 1;  # note: a;b"⟩ =
      IssueCodes.UNNECESSARY_SEMICOLON := by decide

/-- C6 (amended): the trailing-semicolon rule returns S003 exactly when,
after stripping the trailing comment and then trailing whitespace, the
remaining content is non-empty and ends in `;`.  Hence `"x = 1;"` yields
S003; `"x = 1;  # note: a;b"` *also* yields S003 (the code part still ends
in a semicolon); and `"x = 1  # note: a;b"` yields no S003 (a semicolon only
inside the comment is exempt). -/
theorem c6_amended :
    (∀ line : Line,
      UnnecessarySemicolonAfterStatement.check line = IssueCodes.UNNECESSARY_SEMICOLON ↔
        ((LineFormatter.remove_finishing_spaces
            (LineFormatter.remove_comment line)).content ≠ "" ∧
         (LineFormatter.remove_finishing_spaces
            (LineFormatter.remove_comment line)).content.data.getLast? = some ';')) ∧
    UnnecessarySemicolonAfterStatement.check ⟨1, "x = 1;"⟩ =
      IssueCodes.UNNECESSARY_SEMICOLON ∧
    UnnecessarySemicolonAfterStatement.check ⟨1, "x = 1;  # note: a;b"⟩ =
      IssueCodes.UNNECESSARY_SEMICOLON ∧
    UnnecessarySemicolonAfterStatement.check ⟨1, "x = 1  # note: a;b"⟩ =
      IssueCodes.DUMMY := by
  refine ⟨?_, by decide, by decide, by decide⟩
  intro line
  unfold UnnecessarySemicolonAfterStatement.check
  cases hg : (LineFormatter.remove_finishing_spaces
      (LineFormatter.remove_comment line)).content.data.getLast? with
  | none =>
    simp [hg]
    decide
  | some c =>
    have hne : (LineFormatter.remove_finishing_spaces
        (LineFormatter.remove_comment line)).content ≠ "" := by
      rw [Ne, str_eq_empty_iff]
      intro hnil
      rw [hnil] at hg
      exact absurd hg (by simp)
    by_cases hc : c = ';'
    · simp [hg, hc, hne]
    · simp [hg, hc, hne]
      decide

theorem getLast?_cons_of_ne (a : α) (l : List α) (h : l ≠ []) :
    (a :: l).getLast? = l.getLast? := by
  cases l with
  | nil => exact absurd rfl h
  | cons b bs => exact List.getLast?_cons_cons

theorem s012Fold_char :
    ∀ (defaults : List PyExprInfo) (st : Bool × Int),
      defaults.foldl
          (fun st d => if isMutableLiteral d.kind then (true, d.lineno) else st) st =
        (match (defaults.filter fun d => isMutableLiteral d.kind).getLast? with
         | none => st
         | some d => (true, d.lineno)) := by
  intro defaults
  induction defaults with
  | nil => intro st; rfl
  | cons d rest ih =>
    intro st
    by_cases hm : isMutableLiteral d.kind = true
    · rw [List.foldl_cons]
      rw [if_pos hm, ih]
      have hfil : List.filter (fun d => isMutableLiteral d.kind) (d :: rest) =
          d :: List.filter (fun d => isMutableLiteral d.kind) rest := by
        simp [List.filter_cons, hm]
      rw [hfil]
      cases hg : (List.filter (fun d => isMutableLiteral d.kind) rest).getLast? with
      | none =>
        rw [List.getLast?_eq_none_iff.mp hg]
        rfl
      | some e =>
        have hne : List.filter (fun d => isMutableLiteral d.kind) rest ≠ [] := by
          intro hnil
          rw [hnil] at hg
          exact absurd hg (by simp)
        rw [getLast?_cons_of_ne _ _ hne, hg]
    · rw [List.foldl_cons]
      rw [if_neg hm, ih]
      have hfil : List.filter (fun d => isMutableLiteral d.kind) (d :: rest) =
          List.filter (fun d => isMutableLiteral d.kind) rest := by
        simp [List.filter_cons, hm]
      rw [hfil]

/-- C5: for every function definition, the checker emits exactly one S012
issue when at least one default-value expression is a literal list,
dictionary or set construction, positioned at the line of the *last*
offending default in declaration order (the last element of the filtered
defaults list), and no S012 otherwise; in particular `def f(items=[]):`
yields one S012 at the default's line and `def f(items=None):` yields
none. -/
theorem c5_mutable_default :
    (∀ (fn : String) (fd : FunctionDef),
      nodeS012 fn fd =
        (match (fd.defaults.filter fun d => isMutableLiteral d.kind).getLast? with
         | some d => [Issue.mk fn d.lineno IssueCodes.DEFAULT_ARGUMENT_MUTABLE]
         | none => [])) ∧
    nodeIssues "h.py" ⟨"f", [⟨"items", 1⟩], [⟨PyExprKind.listDisp, 1⟩], []⟩ =
      [⟨"h.py", 1, IssueCodes.DEFAULT_ARGUMENT_MUTABLE⟩] ∧
    nodeIssues "h.py" ⟨"f", [⟨"items", 1⟩], [⟨PyExprKind.constExpr, 1⟩], []⟩ = [] := by
  refine ⟨?_, by decide, by decide⟩
  intro fn fd
  unfold nodeS012 s012Fold
  rw [s012Fold_char]
  cases hg : (fd.defaults.filter fun d => isMutableLiteral d.kind).getLast? with
  | none => rfl
  | some d => rfl

theorem length_insertIss (x : Issue) : ∀ l, (insertIss x l).length = l.length + 1 := by
  intro l
  induction l with
  | nil => rfl
  | cons y ys ih =>
    unfold insertIss
    by_cases h : issueLe y x = true
    · simp [h, ih]
    · simp [h]

theorem length_pySortIssues (l : List Issue) : (pySortIssues l).length = l.length := by
  unfold pySortIssues
  induction l with
  | nil => rfl
  | cons x xs ih => simp [List.foldr_cons, length_insertIss, ih]

theorem mem_insertIss (a x : Issue) : ∀ l, a ∈ insertIss x l ↔ a = x ∨ a ∈ l := by
  intro l
  induction l with
  | nil => simp [insertIss]
  | cons y ys ih =>
    unfold insertIss
    by_cases h : issueLe y x = true
    · simp [h, ih]
      tauto
    · simp [h]

theorem mem_pySortIssues (a : Issue) (l : List Issue) : a ∈ pySortIssues l ↔ a ∈ l := by
  unfold pySortIssues
  induction l with
  | nil => simp
  | cons x xs ih => simp [mem_insertIss, ih]

/-- C2 (counterexample): `def f(A, B):` declares two non-snake-case
parameters on line 1; the syntax pass emits one S010 per parameter at the
same line with the same code, and the rendered output contains the identical
line twice — the checker performs no deduplication. -/
theorem c2_counterexample :
    processFile "dup.py" "def f(A, B):\n    pass"
      (some [PyNode.functionDef ⟨"f", [⟨"A", 1⟩, ⟨"B", 1⟩], [], [PyStmt.otherStmt]⟩]) =
    Except.ok
      ["dup.py: Line 1: S010 Argument name arg_name should be written in snake_case",
       "dup.py: Line 1: S010 Argument name arg_name should be written in snake_case"] := by
  rfl

/-- C2 (amended): the checker never deduplicates: every collected issue is
rendered, so the output length is exactly the number of line-rule issues
plus the number of syntax-pass issues; when a check fires more than once at
the same line with the same code (e.g. two non-snake-case parameters on one
line), the identical issue is emitted once per firing. -/
theorem c2_amended (fn content : String) (nodes : List PyNode) (out : List String)
    (h : processFile fn content (some nodes) = Except.ok out) :
    out.length =
      (check_file_line_by_line fn content).length + (analyzerIssues fn nodes).length := by
  have h' : (pySortIssues
      (check_file_line_by_line fn content ++ analyzerIssues fn nodes)).map renderIssue = out :=
    Except.ok.inj h
  rw [← h', List.length_map, length_pySortIssues, List.length_append]

theorem c2_amended_witness :
    (["dup.py: Line 1: S010 Argument name arg_name should be written in snake_case",
      "dup.py: Line 1: S010 Argument name arg_name should be written in snake_case"] :
        List String).length =
      (check_file_line_by_line "dup.py" "def f(A, B):\n    pass").length +
        (analyzerIssues "dup.py"
          [PyNode.functionDef ⟨"f", [⟨"A", 1⟩, ⟨"B", 1⟩], [], [PyStmt.otherStmt]⟩]).length :=
  c2_amended "dup.py" "def f(A, B):\n    pass"
    [PyNode.functionDef ⟨"f", [⟨"A", 1⟩, ⟨"B", 1⟩], [], [PyStmt.otherStmt]⟩] _ (by rfl)

theorem mem_processLine_code_ne (fn : String) (prev : List Line) (pos : Int)
    (raw : String) (i : Issue) (h : i ∈ processLine fn prev pos raw) :
    i.code ≠ IssueCodes.DUMMY := by
  unfold processLine at h
  rcases List.mem_filterMap.mp h with ⟨r, hr, hf⟩
  dsimp only at hf
  by_cases hskip : r = LBLRule.moreThanTwoBlankLinesPrecedingCodeLine ∧ pyRstrip raw = ""
  · rw [if_pos hskip] at hf
    exact absurd hf (by simp)
  · rw [if_neg hskip] at hf
    by_cases hD : ruleCheck r prev ⟨pos, pyRstrip raw⟩ = IssueCodes.DUMMY
    · rw [if_pos hD] at hf
      exact absurd hf (by simp)
    · rw [if_neg hD] at hf
      injection hf with hf
      rw [← hf]
      exact hD

theorem mem_checkLoop_code_ne :
    ∀ (lines : List String) (fn : String) (pos : Int) (prev : List Line) (i : Issue),
      i ∈ checkLoop fn pos prev lines → i.code ≠ IssueCodes.DUMMY := by
  intro lines
  induction lines with
  | nil =>
    intro fn pos prev i h
    exact absurd h (by simp [checkLoop])
  | cons raw rest ih =>
    intro fn pos prev i h
    simp only [checkLoop] at h
    rcases List.mem_append.mp h with h1 | h2
    · exact mem_processLine_code_ne fn prev pos raw i h1
    · exact ih fn (pos + 1) (prev ++ [mkLine pos raw]) i h2

theorem mem_nodeIssues_code_ne (fn : String) (fd : FunctionDef) (i : Issue)
    (h : i ∈ nodeIssues fn fd) : i.code ≠ IssueCodes.DUMMY := by
  unfold nodeIssues at h
  rcases List.mem_append.mp h with h | h
  · rcases List.mem_append.mp h with h | h
    · rcases List.mem_filterMap.mp h with ⟨a, ha, hf⟩
      by_cases hs : is_arg_snake_case a.arg = true
      · rw [if_pos hs] at hf
        exact absurd hf (by simp)
      · rw [if_neg hs] at hf
        injection hf with hf
        rw [← hf]
        show IssueCodes.ARGUMENT_NAME_SNAKE_CASE ≠ IssueCodes.DUMMY
        decide
    · rcases List.mem_filterMap.mp h with ⟨st, hst, hf⟩
      split at hf
      · rename_i var_id lineno
        by_cases hs : is_arg_snake_case var_id = true
        · rw [if_pos hs] at hf
          exact absurd hf (by simp)
        · rw [if_neg hs] at hf
          injection hf with hf
          rw [← hf]
          show IssueCodes.VARIABLE_NAME_SNAKE_CASE ≠ IssueCodes.DUMMY
          decide
      · exact absurd hf (by simp)
  · simp only [nodeS012] at h
    by_cases hb : (s012Fold fd.defaults).1 = true
    · rw [if_pos hb] at h
      rw [List.mem_singleton.mp h]
      show IssueCodes.DEFAULT_ARGUMENT_MUTABLE ≠ IssueCodes.DUMMY
      decide
    · rw [if_neg hb] at h
      exact absurd h (by simp)

theorem mem_analyzerIssues_code_ne :
    ∀ (nodes : List PyNode) (fn : String) (i : Issue),
      i ∈ analyzerIssues fn nodes → i.code ≠ IssueCodes.DUMMY := by
  intro nodes
  induction nodes with
  | nil =>
    intro fn i h
    exact absurd h (by simp [analyzerIssues])
  | cons n rest ih =>
    intro fn i h
    unfold analyzerIssues at h
    rw [List.foldr_cons] at h
    rcases List.mem_append.mp h with h | h
    · cases n with
      | functionDef fd => exact mem_nodeIssues_code_ne fn fd i h
      | otherNode => exact absurd h (by simp)
    · exact ih fn i h

/-- C8: no issue carrying the sentinel code ever reaches the rendered output:
every member of the sorted merged issue list (whose `renderIssue`-image is
exactly what `processFile` prints) has a code different from the sentinel —
the dispatch layer filters the sentinel before an `Issue` is created, and the
syntax pass only constructs S010/S011/S012 issues. -/
theorem c8_no_sentinel (fn content : String) (nodes : List PyNode) (i : Issue)
    (h : i ∈ pySortIssues (check_file_line_by_line fn content ++ analyzerIssues fn nodes)) :
    i.code ≠ IssueCodes.DUMMY := by
  rw [mem_pySortIssues] at h
  rcases List.mem_append.mp h with h | h
  · exact mem_checkLoop_code_ne (pySplitLines content) fn 1 [] i h
  · exact mem_analyzerIssues_code_ne nodes fn i h

theorem c8_no_sentinel_witness :
    (Issue.mk "w.py" 1 IssueCodes.UNNECESSARY_SEMICOLON).code ≠ IssueCodes.DUMMY :=
  c8_no_sentinel "w.py" "x = 1;" []
    (Issue.mk "w.py" 1 IssueCodes.UNNECESSARY_SEMICOLON) (by decide)

theorem pyDropWhile_idem (p : α → Bool) :
    ∀ l, List.dropWhile p (List.dropWhile p l) = List.dropWhile p l := by
  intro l
  induction l with
  | nil => rfl
  | cons a as ih =>
    by_cases h : p a = true
    · rw [List.dropWhile_cons_of_pos h]
      exact ih
    · rw [List.dropWhile_cons_of_neg h, List.dropWhile_cons_of_neg h]

theorem pyRstrip_idem (s : String) : pyRstrip (pyRstrip s) = pyRstrip s := by
  show String.mk ((((s.data.reverse.dropWhile pyIsSpace).reverse).reverse.dropWhile
      pyIsSpace).reverse) = String.mk ((s.data.reverse.dropWhile pyIsSpace).reverse)
  rw [List.reverse_reverse, pyDropWhile_idem]

theorem checkLoop_map_rstrip (fn : String) :
    ∀ (lines : List String) (pos : Int) (prev : List Line),
      checkLoop fn pos prev (lines.map pyRstrip) = checkLoop fn pos prev lines := by
  intro lines
  induction lines with
  | nil => intro pos prev; rfl
  | cons raw rest ih =>
    intro pos prev
    simp only [List.map_cons, checkLoop]
    rw [show processLine fn prev pos (pyRstrip raw) = processLine fn prev pos raw by
          unfold processLine; rw [pyRstrip_idem],
        show mkLine pos (pyRstrip raw) = mkLine pos raw by
          unfold mkLine; rw [pyRstrip_idem],
        ih]

/-- C10: the line-rule pass right-strips each physical line before any rule
sees it, so replacing every raw line by its right-stripped form leaves the
output unchanged; consequently a whitespace-only line acts exactly like a
blank line (it is skipped by the blank-run rule yet counts as an
empty-content predecessor — the run of `["", "", "", "   ", "z"]` yields a
single S006 at line 5 and none at line 4), and trailing whitespace never
contributes to the S001 length check (79 `x`s plus trailing spaces yield no
S001, while 80 `x`s do). -/
theorem c10_rstrip_before_rules :
    (∀ (fn : String) (lines : List String),
      checkLines fn (lines.map pyRstrip) = checkLines fn lines) ∧
    checkLines "b.py" ["", "", "", "   ", "z"] =
      [⟨"b.py", 5, IssueCodes.MORE_TWO_BLANK_LINES_PRECEDING_CODE_LINE⟩] ∧
    checkLines "c.py" [String.mk (List.replicate 79 'x') ++ "   "] = [] ∧
    checkLines "d.py" [String.mk (List.replicate 80 'x')] =
      [⟨"d.py", 1, IssueCodes.MAX_LENGTH⟩] := by
  refine ⟨?_, by decide, by decide, by decide⟩
  intro fn lines
  exact checkLoop_map_rstrip fn lines 1 []

theorem ruleCheck_eq_or (r : LBLRule) (prev_lines : List Line) (line : Line) :
    ruleCheck r prev_lines line = IssueCodes.DUMMY ∨
      ruleCheck r prev_lines line = ruleCode r := by
  cases r <;>
    simp only [ruleCheck, ruleCode, MaxLineLength.check, IndentationMultipleOfFour.check,
      UnnecessarySemicolonAfterStatement.check, AtLeastTwoSpacesBeforeInlineComment.check,
      TodoFound.check, MoreThanTwoBlankLinesPrecedingCodeLine.check,
      TooManySpacesAfterClass.check, TooManySpacesAfterDef.check,
      ClassNameInCamelCase.check, FunctionNameInSnakeCase.check] <;>
    (repeat' split) <;> simp

theorem ruleCheck_S006_eq (r : LBLRule) (prev_lines : List Line) (line : Line)
    (h : ruleCheck r prev_lines line = IssueCodes.MORE_TWO_BLANK_LINES_PRECEDING_CODE_LINE) :
    r = LBLRule.moreThanTwoBlankLinesPrecedingCodeLine := by
  rcases ruleCheck_eq_or r prev_lines line with hd | hc
  · rw [h] at hd
    exact absurd hd (by decide)
  · rw [h] at hc
    cases r <;> first | rfl | exact absurd hc (by decide)

theorem blank_check_eq_S006_iff (prev_lines : List Line) (line : Line) :
    MoreThanTwoBlankLinesPrecedingCodeLine.check prev_lines line =
        IssueCodes.MORE_TWO_BLANK_LINES_PRECEDING_CODE_LINE ↔
      (2 < prev_lines.length ∧
        (prev_lines.reverse.map Line.content).take 3 = ["", "", ""]) := by
  unfold MoreThanTwoBlankLinesPrecedingCodeLine.check
  by_cases h : prev_lines.length ≤ 2
  · rw [if_pos h]
    constructor
    · intro hh
      exact absurd hh (by decide)
    · rintro ⟨h2, -⟩
      omega
  · rw [if_neg h]
    have h3 : 2 < prev_lines.reverse.length := by
      rw [List.length_reverse]
      omega
    match hrev : prev_lines.reverse with
    | [] => rw [hrev] at h3; simp at h3
    | [a] => rw [hrev] at h3; simp at h3
    | [a, b] => rw [hrev] at h3; simp at h3
    | m1 :: m2 :: m3 :: rest =>
      dsimp only
      by_cases hcond : m3.content = m2.content ∧ m2.content = m1.content ∧ m1.content = ""
      · rw [if_pos hcond]
        obtain ⟨hc1, hc2, hc3⟩ := hcond
        simp only [List.map_cons, List.take]
        constructor
        · intro _
          refine ⟨by omega, ?_⟩
          rw [hc3] at hc2
          rw [hc2] at hc1
          rw [hc1, hc2, hc3]
        · intro _
          trivial
      · rw [if_neg hcond]
        constructor
        · intro hh
          exact absurd hh (by decide)
        · rintro ⟨-, htake⟩
          simp only [List.map_cons, List.take] at htake
          injection htake with e1 htake
          injection htake with e2 htake
          injection htake with e3 hrest
          exact absurd ⟨by rw [e3, e2], by rw [e2, e1], e1⟩ hcond

theorem mem_processLine_iff (fn : String) (prev_lines : List Line) (pos : Int)
    (raw : String) (i : Issue) :
    i ∈ processLine fn prev_lines pos raw ↔
      ∃ r, r ∈ line_by_line_rules ∧
        ¬(r = LBLRule.moreThanTwoBlankLinesPrecedingCodeLine ∧ pyRstrip raw = "") ∧
        ruleCheck r prev_lines ⟨pos, pyRstrip raw⟩ ≠ IssueCodes.DUMMY ∧
        i = ⟨fn, pos, ruleCheck r prev_lines ⟨pos, pyRstrip raw⟩⟩ := by
  unfold processLine
  rw [List.mem_filterMap]
  constructor
  · rintro ⟨r, hr, hf⟩
    dsimp only at hf
    by_cases hskip : r = LBLRule.moreThanTwoBlankLinesPrecedingCodeLine ∧ pyRstrip raw = ""
    · rw [if_pos hskip] at hf
      exact absurd hf (by simp)
    · rw [if_neg hskip] at hf
      by_cases hD : ruleCheck r prev_lines ⟨pos, pyRstrip raw⟩ = IssueCodes.DUMMY
      · rw [if_pos hD] at hf
        exact absurd hf (by simp)
      · rw [if_neg hD] at hf
        injection hf with hf
        exact ⟨r, hr, hskip, hD, hf.symm⟩
  · rintro ⟨r, hr, hskip, hD, rfl⟩
    refine ⟨r, hr, ?_⟩
    dsimp only
    rw [if_neg hskip, if_neg hD]

theorem checkLoop_append (fn : String) :
    ∀ (xs ys : List String) (pos : Int) (prev : List Line),
      checkLoop fn pos prev (xs ++ ys) =
        checkLoop fn pos prev xs ++
          checkLoop fn (pos + xs.length) (prev ++ linesFrom pos xs) ys := by
  intro xs
  induction xs with
  | nil =>
    intro ys pos prev
    simp [checkLoop, linesFrom]
  | cons raw rest ih =>
    intro ys pos prev
    show processLine fn prev pos raw ++
        checkLoop fn (pos + 1) (prev ++ [mkLine pos raw]) (rest ++ ys) =
      (processLine fn prev pos raw ++
        checkLoop fn (pos + 1) (prev ++ [mkLine pos raw]) rest) ++
        checkLoop fn (pos + ((rest.length + 1 : Nat) : Int))
          (prev ++ (mkLine pos raw :: linesFrom (pos + 1) rest)) ys
    rw [ih ys (pos + 1) (prev ++ [mkLine pos raw])]
    rw [show ((prev ++ [mkLine pos raw]) ++ linesFrom (pos + 1) rest) =
        prev ++ (mkLine pos raw :: linesFrom (pos + 1) rest) by simp]
    rw [show pos + ((rest.length + 1 : Nat) : Int) = (pos + 1) + (rest.length : Int) by
      push_cast; ring]
    simp [List.append_assoc]

theorem checkLoop_pos_range :
    ∀ (lines : List String) (fn : String) (pos : Int) (prev : List Line) (i : Issue),
      i ∈ checkLoop fn pos prev lines →
        pos ≤ i.pos ∧ i.pos < pos + lines.length := by
  intro lines
  induction lines with
  | nil =>
    intro fn pos prev i h
    exact absurd h (by simp [checkLoop])
  | cons raw rest ih =>
    intro fn pos prev i h
    simp only [checkLoop] at h
    rcases List.mem_append.mp h with h1 | h2
    · rcases (mem_processLine_iff fn prev pos raw i).mp h1 with ⟨r, -, -, -, rfl⟩
      refine ⟨le_refl _, ?_⟩
      show pos < pos + ((rest.length + 1 : Nat) : Int)
      omega
    · obtain ⟨hl, hu⟩ := ih fn (pos + 1) (prev ++ [mkLine pos raw]) i h2
      constructor
      · omega
      · rw [List.length_cons]
        push_cast
        omega

theorem linesFrom_length : ∀ (lines : List String) (pos : Int),
    (linesFrom pos lines).length = lines.length := by
  intro lines
  induction lines with
  | nil => intro pos; rfl
  | cons raw rest ih =>
    intro pos
    simp [linesFrom, ih]

theorem linesFrom_map_content : ∀ (lines : List String) (pos : Int),
    (linesFrom pos lines).map Line.content = lines.map pyRstrip := by
  intro lines
  induction lines with
  | nil => intro pos; rfl
  | cons raw rest ih =>
    intro pos
    simp [linesFrom, mkLine, ih]

theorem processLine_mem_S006_iff (fn : String) (prev_lines : List Line) (pos : Int)
    (raw : String) :
    (Issue.mk fn pos IssueCodes.MORE_TWO_BLANK_LINES_PRECEDING_CODE_LINE ∈
        processLine fn prev_lines pos raw) ↔
      (pyRstrip raw ≠ "" ∧ 2 < prev_lines.length ∧
        (prev_lines.reverse.map Line.content).take 3 = ["", "", ""]) := by
  rw [mem_processLine_iff]
  constructor
  · rintro ⟨r, hr, hskip, hD, heq⟩
    injection heq with h1 h2 h3
    have hr' : r = LBLRule.moreThanTwoBlankLinesPrecedingCodeLine :=
      ruleCheck_S006_eq r prev_lines _ h3.symm
    subst hr'
    have hcond := (blank_check_eq_S006_iff prev_lines ⟨pos, pyRstrip raw⟩).mp h3.symm
    refine ⟨?_, hcond.1, hcond.2⟩
    intro hc
    exact hskip ⟨rfl, hc⟩
  · rintro ⟨hne, h2, h3⟩
    have hS006 := (blank_check_eq_S006_iff prev_lines ⟨pos, pyRstrip raw⟩).mpr ⟨h2, h3⟩
    refine ⟨LBLRule.moreThanTwoBlankLinesPrecedingCodeLine, by decide, ?_, ?_, ?_⟩
    · rintro ⟨-, hc⟩
      exact hne hc
    · show MoreThanTwoBlankLinesPrecedingCodeLine.check prev_lines ⟨pos, pyRstrip raw⟩ ≠ _
      rw [hS006]
      decide
    · show Issue.mk fn pos IssueCodes.MORE_TWO_BLANK_LINES_PRECEDING_CODE_LINE =
        ⟨fn, pos, MoreThanTwoBlankLinesPrecedingCodeLine.check prev_lines ⟨pos, pyRstrip raw⟩⟩
      rw [hS006]

/-- C7: the blank-run rule fires exactly as claimed: in any file, the line at
position `before.length + 1` receives an S006 issue iff its right-stripped
content is non-empty (otherwise the engine skips the rule for that line)
while the history — to which the engine appends every line, blank or not,
after dispatch — holds more than 2 entries and its 3 most recent entries all
have empty content, i.e. the 3 physical lines immediately above are blank
after right-stripping.  So S006 fires exactly on a non-empty line preceded by
at least 3 blank lines. -/
theorem c7_blank_run (fn : String) (before : List String) (raw : String)
    (after : List String) :
    (Issue.mk fn ((before.length : Int) + 1)
        IssueCodes.MORE_TWO_BLANK_LINES_PRECEDING_CODE_LINE ∈
      checkLines fn (before ++ raw :: after)) ↔
      (pyRstrip raw ≠ "" ∧ 2 < before.length ∧
        (before.reverse.map pyRstrip).take 3 = ["", "", ""]) := by
  unfold checkLines
  rw [checkLoop_append fn before (raw :: after) 1 []]
  simp only [checkLoop, List.nil_append]
  rw [List.mem_append, List.mem_append]
  have hpos : (1 : Int) + (before.length : Int) = (before.length : Int) + 1 := by ring
  rw [hpos]
  have hprev_len : 2 < (linesFrom 1 before).length ↔ 2 < before.length := by
    rw [linesFrom_length]
  have hprev_map : ((linesFrom 1 before).reverse.map Line.content).take 3 =
      (before.reverse.map pyRstrip).take 3 := by
    rw [List.map_reverse, linesFrom_map_content, ← List.map_reverse]
  constructor
  · rintro (h | h | h)
    · exfalso
      have hub := (checkLoop_pos_range before fn 1 [] _ h).2
      have hub' : (before.length : Int) + 1 < 1 + (before.length : Int) := hub
      omega
    · have hch := (processLine_mem_S006_iff fn (linesFrom 1 before)
        ((before.length : Int) + 1) raw).mp h
      refine ⟨hch.1, ?_, ?_⟩
      · rw [← hprev_len]
        exact hch.2.1
      · rw [← hprev_map]
        exact hch.2.2
    · exfalso
      have hlb := (checkLoop_pos_range after fn ((before.length : Int) + 1 + 1) _ _ h).1
      have hlb' : (before.length : Int) + 1 + 1 ≤ (before.length : Int) + 1 := hlb
      omega
  · rintro ⟨hne, h2, h3⟩
    right
    left
    exact (processLine_mem_S006_iff fn (linesFrom 1 before)
        ((before.length : Int) + 1) raw).mpr
      ⟨hne, hprev_len.mpr h2, by rw [hprev_map]; exact h3⟩
